import Mathlib

/-!
Verification of the core of the extract-LLM pipeline.

This file gives a shallow embedding, in Lean 4, of the algorithmic core of
the repository: the exponential-backoff retry layer (`api_interface.py`),
the response sanitizer (`job_extractor.py` together with the regex salvage
helper in `helpers.py`), the iterative refinement engine
(`iterative_refiner.py`), the optimization orchestrator
(`match_optimizer.py`) and the placeholder pairing algorithm
(`placeholder_matcher.py`).

Modelling conventions:
- Python strings are modelled as `List Char` (`PyStr`), so that every string
  operation is structural recursion and evaluates by `decide`/`rfl`.
- Python machine behaviour that belongs to the standard library
  (`json.loads`, the network call inside `call_litellm`, the LLM responses)
  is passed in as an explicit function parameter; everything written in the
  repository itself is translated definitionally.
- Exceptions are modelled with `Except`: a `try/except` block becomes a
  `match` on the `Except` value of the embedded body.
- Python nonnegative `int` arithmetic is `Nat`; the config values that are
  floats (`CONTENT_TOLERANCE`, the backoff delays) are modelled as `ℚ`.
  `int(words * 1.3)` is modelled as `13 * words / 10` (floor), which agrees
  with the float computation for all word counts.
-/

namespace ExtractLLM

/-- Python `str` is modelled as a list of characters. -/
abbrev PyStr := List Char

/-- The double-quote character (escaping keeps string literals clean). -/
def quoteChar : Char := Char.ofNat 34

/-- The single-quote character. -/
def apostChar : Char := Char.ofNat 39

/-- The opening curly brace character. -/
def braceOpen : Char := Char.ofNat 123

/-- The closing curly brace character. -/
def braceClose : Char := Char.ofNat 125

/-- Auxiliary for `pySplitWs`: accumulates the current word (reversed). -/
def splitWsAux : PyStr → PyStr → List PyStr
  | [], cur => if cur.isEmpty then [] else [cur.reverse]
  | c :: rest, cur =>
    if c.isWhitespace then
      if cur.isEmpty then splitWsAux rest [] else cur.reverse :: splitWsAux rest []
    else splitWsAux rest (c :: cur)

/-- Models Python `str.split()` with no argument: split on runs of
whitespace, discarding empty words. -/
def pySplitWs (s : PyStr) : List PyStr := splitWsAux s []

/-- Models Python `str.strip()`: drop whitespace from both ends. -/
def pyStrip (s : PyStr) : PyStr :=
  ((s.dropWhile Char.isWhitespace).reverse.dropWhile Char.isWhitespace).reverse

/-- Auxiliary for `pySplitComma`. -/
def splitCommaAux : PyStr → PyStr → List PyStr
  | [], cur => [cur.reverse]
  | c :: rest, cur =>
    if c = ',' then cur.reverse :: splitCommaAux rest []
    else splitCommaAux rest (c :: cur)

/-- Models Python `str.split(",")`: split at every comma, keeping empty
pieces (so the empty string splits to one empty piece). -/
def pySplitComma (s : PyStr) : List PyStr := splitCommaAux s []

/-- Embeds `estimate_tokens` (src/helpers.py): `int(len(text.split()) * 1.3)`,
i.e. the floor of 1.3 tokens per whitespace-delimited word. -/
def estimate_tokens (text : PyStr) : Nat :=
  13 * (pySplitWs text).length / 10

/-! ## Call Orchestrator (src/api_interface.py) -/

/-- Embeds `exponential_backoff` (src/api_interface.py): the delay before the
retry that follows failed attempt number `attempt` is
`min(initial_delay * multiplier ** (attempt - 1), max_delay)`.
The three config values `API_INITIAL_DELAY`, `API_MAX_DELAY` and
`API_BACKOFF_MULTIPLIER` are passed as parameters. -/
def exponential_backoff (initialDelay maxDelay multiplier : ℚ) (attempt : Nat) : ℚ :=
  min (initialDelay * multiplier ^ (attempt - 1)) maxDelay

/-- Outcome of `call_api` (src/api_interface.py). `content` is the extracted
response text of the first successful attempt together with its 1-based
attempt number; `exhausted` is the raised `APIInterfaceError`, carrying the
last underlying error and the number of attempts performed; `fellThrough`
is the implicit `None` returned when `API_MAX_ATTEMPTS` is zero and the
`while` loop never runs. -/
inductive CallApiResult where
  | content (text : String) (attemptsMade : Nat)
  | exhausted (lastError : String) (attemptsMade : Nat)
  | fellThrough
deriving DecidableEq, Repr

/-- The retry loop of `call_api`. `att a` is the outcome of attempt number
`a` of the underlying `call_litellm` call plus content extraction (an
external effect, hence a parameter); `fuel` is `max_attempts + 1 - attempt`,
so the loop guard `attempt <= max_attempts` is `fuel > 0` and the retry
condition `attempt < max_attempts` is `fuel > 1`. -/
def callApiLoop (att : Nat → Except String String) : Nat → Nat → CallApiResult
  | 0, _ => .fellThrough
  | fuel + 1, attempt =>
    match att attempt with
    | .ok text => .content text attempt
    | .error e =>
      if fuel = 0 then .exhausted e attempt
      else callApiLoop att fuel (attempt + 1)

/-- Embeds `call_api` (src/api_interface.py): attempts are numbered starting
at 1 and at most `maxAttempts` are performed. -/
def call_api (att : Nat → Except String String) (maxAttempts : Nat) : CallApiResult :=
  callApiLoop att maxAttempts 1

/-! ## Refinement Engine (src/iterative_refiner.py) -/

/-- The configuration values consulted by `validate_section_limits`,
with the defaults used by `CONFIG.get`. -/
structure RefinerConfig where
  maxOverviewChars : Nat
  maxSkillChars : Nat
  maxBulletChars : Nat
  contentTolerance : ℚ
deriving Repr

/-- The default configuration (`MAX_OVERVIEW_CHARS = 500`,
`MAX_SKILL_CHARS = 50`, `MAX_BULLET_CHARS = 200`, `CONTENT_TOLERANCE = 0.1`). -/
def defaultConfig : RefinerConfig := ⟨500, 50, 200, 1/10⟩

/-- The size limits returned by `validate_section_limits`. -/
structure SectionLimits where
  maxChars : Nat
  maxWords : Nat
  maxTokens : Nat
  tolerance : ℚ
deriving Repr

/-- Embeds `validate_section_limits` (src/iterative_refiner.py): picks
`max_chars` by section name (`"overview"`, names starting with `"skill"`,
names starting with `"bullet"`, otherwise a `RefinementError`), and derives
`max_words = max_chars // 5` and `max_tokens = max_chars // 4`. -/
def validate_section_limits (cfg : RefinerConfig) (sectionName : String) :
    Except String SectionLimits :=
  if sectionName = "overview" then
    .ok ⟨cfg.maxOverviewChars, cfg.maxOverviewChars / 5, cfg.maxOverviewChars / 4,
         cfg.contentTolerance⟩
  else if sectionName.startsWith "skill" then
    .ok ⟨cfg.maxSkillChars, cfg.maxSkillChars / 5, cfg.maxSkillChars / 4,
         cfg.contentTolerance⟩
  else if sectionName.startsWith "bullet" then
    .ok ⟨cfg.maxBulletChars, cfg.maxBulletChars / 5, cfg.maxBulletChars / 4,
         cfg.contentTolerance⟩
  else .error ("Unknown section type: " ++ sectionName)

/-- The acceptance test at the top of each iteration of `refine_section`:
`char_count <= max_chars * (1 + tolerance) and word_count <= max_words and
token_count <= max_tokens`. -/
def acceptText (limits : SectionLimits) (text : PyStr) : Bool :=
  decide ((text.length : ℚ) ≤ (limits.maxChars : ℚ) * (1 + limits.tolerance))
    && decide ((pySplitWs text).length ≤ limits.maxWords)
    && decide (estimate_tokens text ≤ limits.maxTokens)

/-- The result of `refine_section`, instrumented with the observable calls:
`reduceCalls` records each `refine_section_via_llm(text, reduction)` call in
order, `summCalls` each fallback summarization call
`(original_text, max_chars)`. -/
structure RefineResult where
  text : PyStr
  iterations : Nat
  reduceCalls : List (PyStr × Nat)
  summCalls : List (PyStr × Nat)
deriving DecidableEq, Repr

/-- The `while iteration < max_iterations` loop of `refine_section`.
`reduce text pct` is the (stripped) response of
`refine_section_via_llm(text, pct)` — an LLM call, hence a parameter.
`fuel` is `max_iterations - iteration`. Returns the current text, the final
iteration count and the list of reduction calls made. -/
def refineLoop (reduce : PyStr → Nat → PyStr) (limits : SectionLimits) :
    Nat → Nat → PyStr → List (PyStr × Nat) → PyStr × Nat × List (PyStr × Nat)
  | 0, iter, text, calls => (text, iter, calls)
  | fuel + 1, iter, text, calls =>
    if acceptText limits text then (text, iter, calls)
    else
      refineLoop reduce limits fuel (iter + 1) (reduce text (10 * (iter + 1)))
        (calls ++ [(text, 10 * (iter + 1))])

/-- Embeds `refine_section` (src/iterative_refiner.py). `reduce` is the
reduction-prompt LLM call, `summ original maxChars` is the summarization
fallback LLM call; the source's default for `maxIterations` is 2.
After the loop, `if iteration >= max_iterations` the summarization fallback
replaces the text with the stripped summarization of the *original* text
at the category's `max_chars` budget, with no further acceptance check. -/
def refine_section (reduce summ : PyStr → Nat → PyStr) (cfg : RefinerConfig)
    (text : PyStr) (sectionName : String) (maxIterations : Nat) :
    Except String RefineResult :=
  match validate_section_limits cfg sectionName with
  | .error e => .error e
  | .ok limits =>
    let r := refineLoop reduce limits maxIterations 0 text []
    if maxIterations ≤ r.2.1 then
      .ok ⟨pyStrip (summ text limits.maxChars), r.2.1, r.2.2, [(text, limits.maxChars)]⟩
    else
      .ok ⟨r.1, r.2.1, r.2.2, []⟩

/-! ## Response Sanitizer (src/job_extractor.py and src/helpers.py) -/

/-- A Python value as produced by `json.loads` (or handed to
`clean_api_response` directly). Dictionary keys coming from JSON are
strings. -/
inductive PyObj where
  | str (s : PyStr)
  | num (n : Int)
  | boolean (b : Bool)
  | noneVal
  | dict (entries : List (PyStr × PyObj))
  | arr (xs : List PyObj)

/-- Models Python `str(v)` for the values a sanitized record is built from.
Exact on the scalar cases; the container cases are abbreviated renderings
(no claim depends on the rendering of a container value). -/
def pyStrOf : PyObj → PyStr
  | .str s => s
  | .num n => (toString n).toList
  | .boolean b => (if b then "True" else "False").toList
  | .noneVal => "None".toList
  | .dict _ => "<dict>".toList
  | .arr _ => "<list>".toList

/-- Python dict assignment `d[k] = v` on an association list: overwrite the
binding if the key is present, otherwise append it. -/
def pyDictSet (d : List (PyStr × PyStr)) (kv : PyStr × PyStr) : List (PyStr × PyStr) :=
  if d.any (fun e => e.1 == kv.1) then
    d.map (fun e => if e.1 == kv.1 then (e.1, kv.2) else e)
  else d ++ [kv]

/-- Does `needle` occur at the head of the list? (Used in place of the
library prefix test.) -/
def leadsWith : PyStr → PyStr → Bool
  | [], _ => true
  | _ :: _, [] => false
  | a :: as, b :: bs => a == b && leadsWith as bs

/-- Splits at the first occurrence of `needle`: returns the part before and
the part after, or `none` if `needle` does not occur. Models Python
`s.split(marker, 1)` for a marker known to occur. -/
def splitOnce (needle : PyStr) : PyStr → Option (PyStr × PyStr)
  | [] => if needle.isEmpty then some ([], []) else none
  | c :: rest =>
    if leadsWith needle (c :: rest) then some ([], (c :: rest).drop needle.length)
    else
      match splitOnce needle rest with
      | some (pre, post) => some (c :: pre, post)
      | none => none

/-- Models the fence-stripping step of `clean_api_response`
(src/job_extractor.py lines 139-142): if a triple-backtick marker
(optionally tagged `json`) occurs, keep only the fenced interior. -/
def stripFences (s : PyStr) : PyStr :=
  match splitOnce "```json".toList s with
  | some (_, after) =>
    match splitOnce "```".toList after with
    | some (inner, _) => inner
    | none => after
  | none =>
    match splitOnce "```".toList s with
    | some (_, after) =>
      match splitOnce "```".toList after with
      | some (inner, _) => inner
      | none => after
    | none => s

/-- Models the brace-slicing step of `clean_api_response`
(src/job_extractor.py lines 143-146): slice from the first opening brace to
the last closing brace when both are found (`find`/`rfind`), like the
Python slice `response[start:end+1]` (empty when the first `..` brace comes
after the last one). -/
def braceSlice (s : PyStr) : PyStr :=
  match s.findIdx? (fun c => c == braceOpen),
      (s.reverse.findIdx? (fun c => c == braceClose)).map (fun j => s.length - 1 - j) with
  | some i, some j => (s.drop i).take (j + 1 - i)
  | _, _ => s

/-- Models `response.strip().replace("'", chr(34))` (src/job_extractor.py
line 147): strip, then turn every single quote into a double quote. -/
def normalizeQuotes (s : PyStr) : PyStr :=
  (pyStrip s).map (fun c => if c = apostChar then quoteChar else c)

/-- The full string preprocessing pipeline of `clean_api_response` applied
before `json.loads`: fence stripping, brace slicing, strip and quote
normalization. -/
def preprocess (s : PyStr) : PyStr := normalizeQuotes (braceSlice (stripFences s))

/-- At a position starting with a double quote, matches `"([^"]+)"`: returns
the (nonempty) quoted content and the remainder after the closing quote. -/
def matchQuoted : PyStr → Option (PyStr × PyStr)
  | [] => none
  | c :: rest =>
    if c == quoteChar then
      let content := rest.takeWhile (fun x => x != quoteChar)
      if content.isEmpty then none
      else
        match rest.drop content.length with
        | d :: rest2 => if d == quoteChar then some (content, rest2) else none
        | [] => none
    else none

/-- Matches the regex `"([^"]+)"\s*:\s*"([^"]+)"` at the head of the input:
a quoted key, optional whitespace, a colon, optional whitespace, a quoted
value. Returns the pair and the remainder after the match. -/
def matchPairAt (s : PyStr) : Option ((PyStr × PyStr) × PyStr) :=
  match matchQuoted s with
  | none => none
  | some (key, r1) =>
    match r1.dropWhile Char.isWhitespace with
    | [] => none
    | c :: r3 =>
      if c == ':' then
        match matchQuoted (r3.dropWhile Char.isWhitespace) with
        | some (val, r4) => some ((key, val), r4)
        | none => none
      else none

/-- Leftmost, non-overlapping scan for key-value pairs, modelling
`re.findall` with the pattern of `partial_json_salvage` (src/helpers.py
line 179). `fuel` bounds the number of scan steps; each step either
consumes a whole match or advances one character. -/
def findPairsAux (att : Nat) (s : PyStr) : List (PyStr × PyStr) :=
  match att with
  | 0 => []
  | f + 1 =>
    match s with
    | [] => []
    | _ :: tail =>
      match matchPairAt s with
      | some (kv, rest) => kv :: findPairsAux f rest
      | none => findPairsAux f tail

/-- All `"key": "value"` pairs of the input, in order of occurrence. -/
def findPairs (s : PyStr) : List (PyStr × PyStr) :=
  findPairsAux s.length s

/-- Embeds `partial_json_salvage` (src/helpers.py lines 171-184): collect
the regex pairs into a dict (later pairs overwrite earlier ones with the
same key); raise `ValueError` when no pair is found. -/
def json_salvage (raw : PyStr) : Except String (List (PyStr × PyStr)) :=
  let salvaged := (findPairs raw).foldl pyDictSet []
  if salvaged.isEmpty then
    .error "Partial JSON salvage failed; no key-value pairs found."
  else .ok salvaged

/-- The default record of `clean_api_response` (src/job_extractor.py lines
124-132): the required-field schema with every field set to `"UNKNOWN"`. -/
def default_data : List (PyStr × PyStr) :=
  [("Title".toList, "UNKNOWN".toList),
   ("Company Name".toList, "UNKNOWN".toList),
   ("Location".toList, "UNKNOWN".toList),
   ("field".toList, "UNKNOWN".toList),
   ("Salary".toList, "UNKNOWN".toList),
   ("posting_date".toList, "UNKNOWN".toList),
   ("cleaned_description".toList, "UNKNOWN".toList)]

/-- The key list of a record. -/
def keysOf (d : List (PyStr × PyStr)) : List PyStr := d.map Prod.fst

/-- Python `parsed.items()`: succeeds only on a dict, otherwise the
`AttributeError` propagates to the outer handler. -/
def pyItems : PyObj → Except String (List (PyStr × PyObj))
  | .dict entries => .ok entries
  | _ => .error "AttributeError: object has no attribute items"

/-- The final schema application of `clean_api_response` (src/job_extractor.py
lines 159-160): `result = default_data.copy()` followed by a
`result.update` with the comprehension that keeps only the schema keys of
`parsed.items()` and coerces each kept value with `str`. -/
def applySchema (parsed : PyObj) : Except String (List (PyStr × PyStr)) :=
  match pyItems parsed with
  | .error e => .error e
  | .ok entries =>
    .ok (((entries.filter (fun kv => default_data.any (fun d => d.1 == kv.1))).map
      (fun kv => (kv.1, pyStrOf kv.2))).foldl pyDictSet default_data)

/-- A raw value handed to `clean_api_response`: a Python string, a
structured value (a non-string without a `content` attribute), or an
envelope exposing a nested `content` field. -/
inductive ApiResponse where
  | pystr (s : PyStr)
  | obj (o : PyObj)
  | envelope (content : ApiResponse)

/-- The `if hasattr(response, 'content')` unwrapping step (performed once). -/
def unwrapContent : ApiResponse → ApiResponse
  | .envelope c => c
  | r => r

/-- The body of the `try` block of `clean_api_response`
(src/job_extractor.py lines 134-162). `jsonLoads` models the standard
library `json.loads` (returns the parsed value or the `JSONDecodeError`
message); `allowSalvage` is `CONFIG["ALLOW_PARTIAL_JSON_PARSE"]`. An
`.error` result models an exception reaching the outer handler. -/
def clean_api_response_inner (jsonLoads : PyStr → Except String PyObj)
    (allowSalvage : Bool) (response : ApiResponse) :
    Except String (List (PyStr × PyStr)) :=
  match unwrapContent response with
  | .pystr s =>
    let processed := preprocess s
    match jsonLoads processed with
    | .ok parsed => applySchema parsed
    | .error e =>
      if allowSalvage then
        match json_salvage processed with
        | .ok salvaged => applySchema (.dict (salvaged.map (fun kv => (kv.1, PyObj.str kv.2))))
        | .error e2 => .error e2
      else .error e
  | .obj o => applySchema o
  | .envelope _ => .error "AttributeError: object has no attribute items"

/-- Embeds `clean_api_response` (src/job_extractor.py lines 116-166): run
the `try` body; any exception is caught and the all-defaults record is
returned instead, so the function is total. -/
def clean_api_response (jsonLoads : PyStr → Except String PyObj)
    (allowSalvage : Bool) (response : ApiResponse) : List (PyStr × PyStr) :=
  match clean_api_response_inner jsonLoads allowSalvage response with
  | .ok r => r
  | .error _ => default_data

/-! ## Optimization Orchestrator (src/match_optimizer.py) -/

/-- The `MatchOptimizerError` exceptions raised by the stage functions. -/
inductive MatchOptimizerError where
  | noResumeData
  | noObjectives
  | noSkills
  | noBullets
  | emptyResponse
  | countMismatch (got : Nat)
  | invalidFormat
  | missingField (name : String)
  | jsonError (msg : String)
  | refineFailed (msg : String)
  | typeError
deriving DecidableEq, Repr

/-- Job metadata consumed by `optimize_match` (the `JobData` dataclass of
src/match_optimizer.py). -/
structure JobData where
  jid : PyStr
  title : PyStr
  company : PyStr
  location : PyStr
  field : PyStr
  cleaned_description : PyStr
  posting_date : PyStr

/-- One entry of a resume's `jobs_section`: a job with its bullet dicts. -/
structure ResumeJob where
  bullets : List (List (PyStr × PyObj))

/-- A source resume record as consumed by `select_top_resumes` and the
aggregation in `optimize_match`. -/
structure Resume where
  usage_count : Int
  skills_list : List PyStr
  jobs_section : List ResumeJob
  objective : PyStr

/-- Lexicographic comparison of the sort keys of `select_top_resumes`
(Python tuple comparison on `(usage_count, len(skills), len(jobs))`). -/
def resumeKeyLe (x y : Int × Nat × Nat) : Bool :=
  decide (x.1 < y.1) ||
    (decide (x.1 = y.1) &&
      (decide (x.2.1 < y.2.1) ||
        (decide (x.2.1 = y.2.1) && decide (x.2.2 ≤ y.2.2))))

/-- Embeds `select_top_resumes` (src/match_optimizer.py lines 94-113):
stable sort descending by `(usage_count, len(skills_list),
len(jobs_section))`, then take the first `top_n` (default 5). -/
def select_top_resumes (resumes : List Resume) (topN : Nat) : List Resume :=
  (resumes.mergeSort (fun a b =>
    resumeKeyLe (b.usage_count, b.skills_list.length, b.jobs_section.length)
      (a.usage_count, a.skills_list.length, a.jobs_section.length))).take topN

/-- Embeds `optimize_objective` (src/match_optimizer.py lines 115-132):
join the (truthy) candidate statements, fail when nothing remains, fail on
an empty model response, else refine the response against the `"overview"`
budget. `apiResult` is the model's response (an external effect). -/
def optimize_objective (reduce summ : PyStr → Nat → PyStr) (cfg : RefinerConfig)
    (apiResult : PyStr) (objectives : List PyStr) :
    Except MatchOptimizerError PyStr :=
  let combined := List.intercalate [Char.ofNat 10]
    ((objectives.filter (fun o => !o.isEmpty)).map pyStrip)
  if combined.isEmpty then .error .noObjectives
  else if apiResult.isEmpty then .error .emptyResponse
  else
    match refine_section reduce summ cfg apiResult "overview" 2 with
    | .ok r => .ok r.text
    | .error e => .error (.refineFailed e)

/-- Embeds `optimize_skills` (src/match_optimizer.py lines 134-160): fail on
an empty skill pool or an empty model response; split the response on
commas and strip each item; fail with a count mismatch unless exactly 10
items result; return them joined with `", "`. -/
def optimize_skills (apiResult : PyStr) (skillsPool : List PyStr) :
    Except MatchOptimizerError PyStr :=
  if skillsPool.isEmpty then .error .noSkills
  else if apiResult.isEmpty then .error .emptyResponse
  else
    let skillList := (pySplitComma apiResult).map pyStrip
    if skillList.length ≠ 10 then .error (.countMismatch skillList.length)
    else .ok (List.intercalate ", ".toList skillList)

/-- Per-bullet refinement inside `optimize_bullets`: look up a field with
default `""`, require it to be a string (a non-string would make
`refine_section` throw a `TypeError` in Python), refine it against the
given category and store it back. -/
def refineBulletField (reduce summ : PyStr → Nat → PyStr) (cfg : RefinerConfig)
    (category : String) (fieldName : PyStr) (entries : List (PyStr × PyObj)) :
    Except MatchOptimizerError (List (PyStr × PyObj)) :=
  let value : PyObj :=
    match entries.find? (fun kv => kv.1 == fieldName) with
    | some kv => kv.2
    | none => .str []
  match value with
  | .str s =>
    match refine_section reduce summ cfg s category 2 with
    | .ok r =>
      .ok (if entries.any (fun e => e.1 == fieldName) then
             entries.map (fun e => if e.1 == fieldName then (e.1, PyObj.str r.text) else e)
           else entries ++ [(fieldName, PyObj.str r.text)])
    | .error e => .error (.refineFailed e)
  | _ => .error .typeError

/-- Embeds `optimize_bullets` (src/match_optimizer.py lines 162-195): fail on
an empty bullet list or response; parse the response, require a JSON array;
refine `bolded_overview` and `description` of every element (which must be
a dict). -/
def optimize_bullets (jsonLoads : PyStr → Except String PyObj)
    (reduce summ : PyStr → Nat → PyStr) (cfg : RefinerConfig)
    (apiResult : PyStr) (bullets : List (List (PyStr × PyObj))) :
    Except MatchOptimizerError (List (List (PyStr × PyObj))) :=
  if bullets.isEmpty then .error .noBullets
  else if apiResult.isEmpty then .error .emptyResponse
  else
    match jsonLoads apiResult with
    | .error e => .error (.jsonError e)
    | .ok (.arr xs) =>
      xs.mapM (fun x =>
        match x with
        | .dict entries => do
          let e1 ← refineBulletField reduce summ cfg "bullet_overview"
            "bolded_overview".toList entries
          refineBulletField reduce summ cfg "bullet_description"
            "description".toList e1
        | _ => .error .typeError)
    | .ok _ => .error .invalidFormat

/-- Embeds `evaluate_match` (src/match_optimizer.py lines 197-235): fail on
an empty response; parse it, require a JSON object; require the fields
`match_rating` and `explanation`, in that order. -/
def evaluate_match (jsonLoads : PyStr → Except String PyObj) (apiResult : PyStr) :
    Except MatchOptimizerError (List (PyStr × PyObj)) :=
  if apiResult.isEmpty then .error .emptyResponse
  else
    match jsonLoads apiResult with
    | .error e => .error (.jsonError e)
    | .ok (.dict entries) =>
      if entries.any (fun kv => kv.1 == "match_rating".toList) then
        if entries.any (fun kv => kv.1 == "explanation".toList) then .ok entries
        else .error (.missingField "explanation")
      else .error (.missingField "match_rating")
    | .ok _ => .error .invalidFormat

/-- The dictionary assembled and returned by `optimize_match` on success. -/
structure OptimizationBundle where
  new_objective : PyStr
  optimized_skills : PyStr
  optimized_bullets : List (List (PyStr × PyObj))
  job_match_evaluation : List (PyStr × PyObj)
  job_json : JobData

/-- The body of the `try` block of `optimize_match` (src/match_optimizer.py
lines 247-278). The source sets `all_resumes = []` (a placeholder noted in
its own comment: "Replace with actual resume data list"), so the guard
`if not all_resumes` always raises `MatchOptimizerError`. The model
responses of the four stages are parameters. -/
def optimize_match_inner (jsonLoads : PyStr → Except String PyObj)
    (reduce summ : PyStr → Nat → PyStr) (cfg : RefinerConfig)
    (objResp skResp blResp evResp : PyStr) (job : JobData) :
    Except MatchOptimizerError OptimizationBundle :=
  let all_resumes : List Resume := []
  if all_resumes.isEmpty then .error .noResumeData
  else
    let top := select_top_resumes all_resumes 5
    let objectives := top.map (fun r => r.objective)
    let skills := top.flatMap (fun r => r.skills_list)
    let bullets := top.flatMap (fun r => r.jobs_section.flatMap (fun j => j.bullets))
    do
      let obj ← optimize_objective reduce summ cfg objResp objectives
      let sk ← optimize_skills skResp skills
      let bl ← optimize_bullets jsonLoads reduce summ cfg blResp bullets
      let ev ← evaluate_match jsonLoads evResp
      .ok ⟨obj, sk, bl, ev, job⟩

/-- Embeds `optimize_match` (src/match_optimizer.py lines 237-281): run the
`try` body; any `MatchOptimizerError` (or other exception) is caught,
logged, and `None` is returned — the function never raises. -/
def optimize_match (jsonLoads : PyStr → Except String PyObj)
    (reduce summ : PyStr → Nat → PyStr) (cfg : RefinerConfig)
    (objResp skResp blResp evResp : PyStr) (job : JobData) :
    Option OptimizationBundle :=
  match optimize_match_inner jsonLoads reduce summ cfg objResp skResp blResp evResp job with
  | .ok b => some b
  | .error _ => none

/-! ## Placeholder Engine (src/placeholder_matcher.py) -/

/-- Python `skills_dict[num]` for the placeholder dict (keys are exactly the
keys of the association list, so the default is never reached). -/
def dictLookup (d : List (Nat × PyStr)) (num : Nat) : PyStr :=
  match d.find? (fun e => e.1 == num) with
  | some e => e.2
  | none => []

/-- The `skills_list` built by `pair_skills_by_length`
(src/placeholder_matcher.py lines 102-105): one triple
`(num, skills_texts.get(num, ""), skills_dict[num])` per slot number, in
ascending slot order. `texts` models `skills_texts.get` with default `""`. -/
def skills_list_of (d : List (Nat × PyStr)) (texts : Nat → PyStr) :
    List (Nat × PyStr × PyStr) :=
  ((d.map Prod.fst).mergeSort (fun a b => decide (a ≤ b))).map
    (fun num => (num, texts num, dictLookup d num))

/-- The `sorted_skills` list (src/placeholder_matcher.py line 106): the
triples stably sorted descending by the character length of the skill
text. -/
def sortedSkills (d : List (Nat × PyStr)) (texts : Nat → PyStr) :
    List (Nat × PyStr × PyStr) :=
  (skills_list_of d texts).mergeSort
    (fun a b => decide (b.2.1.length ≤ a.2.1.length))

/-- The pairing loop (src/placeholder_matcher.py lines 109-112) kept at the
level of the sorted triples: pair position `i` from the front with position
`n - 1 - i` from the back, for `i < n / 2`. -/
def pairedTriples (d : List (Nat × PyStr)) (texts : Nat → PyStr) :
    List ((Nat × PyStr × PyStr) × (Nat × PyStr × PyStr)) :=
  let s := sortedSkills d texts
  let n := s.length
  (List.range (n / 2)).map (fun i =>
    (s.getD i (0, [], []), s.getD (n - 1 - i) (0, [], [])))

/-- Embeds `PlaceholderMatcher.pair_skills_by_length`
(src/placeholder_matcher.py lines 96-116): each pair is
`(first[2], first[1], last[2], last[1])`, i.e. the placeholders and skill
texts of the two paired triples. -/
def pair_skills_by_length (d : List (Nat × PyStr)) (texts : Nat → PyStr) :
    List ((PyStr × PyStr) × (PyStr × PyStr)) :=
  (pairedTriples d texts).map (fun p =>
    ((p.1.2.2, p.1.2.1), (p.2.2.2, p.2.2.1)))

/-! ## Theorems -/

/-- C7: for every attempt number `a ≥ 1` the backoff delay equals
`min(initial_delay * multiplier^(a-1), max_delay)` (so the first retry
sleeps `initial_delay` unscaled); with `initial_delay = 2`,
`multiplier = 2`, `max_delay = 60` the delays for attempts 1..5 are exactly
`[2, 4, 8, 16, 32]`, and every attempt from 6 on clamps at 60. -/
theorem exponential_backoff_spec (initialDelay maxDelay multiplier : ℚ) (a : Nat)
    (ha : 6 ≤ a) :
    (∀ b : Nat, 1 ≤ b →
      exponential_backoff initialDelay maxDelay multiplier b
        = min (initialDelay * multiplier ^ (b - 1)) maxDelay)
    ∧ [1, 2, 3, 4, 5].map (exponential_backoff 2 60 2) = [2, 4, 8, 16, 32]
    ∧ exponential_backoff 2 60 2 a = 60 := by
  refine ⟨fun b _ => rfl, by norm_num [exponential_backoff], ?_⟩
  have h5 : (2 : ℚ) ^ 5 ≤ 2 ^ (a - 1) :=
    pow_le_pow_right₀ (by norm_num) (by omega)
  have h60 : (60 : ℚ) ≤ 2 * 2 ^ (a - 1) := by
    norm_num at h5
    linarith
  simpa [exponential_backoff] using min_eq_right h60

theorem exponential_backoff_spec_witness :
    [1, 2, 3, 4, 5].map (exponential_backoff 2 60 2) = [2, 4, 8, 16, 32]
    ∧ exponential_backoff 2 60 2 6 = 60 :=
  (exponential_backoff_spec 2 60 2 6 (by norm_num)).2

/-- If every attempt in the window `[attempt, attempt + fuel)` fails, the
retry loop raises after the last of them, carrying its error. -/
theorem callApiLoop_all_fail (att : Nat → Except String String) (errs : Nat → String) :
    ∀ fuel attempt, 1 ≤ fuel →
      (∀ a, attempt ≤ a → a < attempt + fuel → att a = Except.error (errs a)) →
      callApiLoop att fuel attempt
        = .exhausted (errs (attempt + fuel - 1)) (attempt + fuel - 1) := by
  intro fuel
  induction fuel with
  | zero => omega
  | succ f ih =>
    intro attempt _ hall
    have hatt : att attempt = Except.error (errs attempt) :=
      hall attempt le_rfl (by omega)
    by_cases hf : f = 0
    · subst hf
      simp [callApiLoop, hatt]
    · have hrec := ih (attempt + 1) (by omega)
        (fun a h1 h2 => hall a (by omega) (by omega))
      have : attempt + 1 + f - 1 = attempt + (f + 1) - 1 := by omega
      rw [this] at hrec
      simp [callApiLoop, hatt, hf, hrec]

/-- If the first success is at attempt `k` inside the window, the loop
returns its content having made exactly `k` attempts. -/
theorem callApiLoop_first_ok (att : Nat → Except String String) (errs : Nat → String) :
    ∀ fuel attempt k text, attempt ≤ k → k < attempt + fuel →
      (∀ a, attempt ≤ a → a < k → att a = Except.error (errs a)) →
      att k = Except.ok text →
      callApiLoop att fuel attempt = .content text k := by
  intro fuel
  induction fuel with
  | zero => omega
  | succ f ih =>
    intro attempt k text hk1 hk2 hfail hk
    by_cases heq : attempt = k
    · subst heq
      simp [callApiLoop, hk]
    · have hlt : attempt < k := by omega
      have hatt : att attempt = Except.error (errs attempt) :=
        hfail attempt le_rfl hlt
      have hf : f ≠ 0 := by omega
      have hrec := ih (attempt + 1) k text (by omega) (by omega)
        (fun a h1 h2 => hfail a (by omega) h2) hk
      simp [callApiLoop, hatt, hf, hrec]

/-- C8: with `max_attempts ≥ 1`, if every attempt fails then `call_api`
performs exactly `max_attempts` attempts and raises `APIInterfaceError`
carrying the last underlying cause; if the first success is at attempt
`k ≤ max_attempts`, its extracted content is returned at that attempt and
no further attempt is made. -/
theorem call_api_spec (att : Nat → Except String String) (maxAttempts : Nat)
    (errs : Nat → String) (hmax : 1 ≤ maxAttempts) :
    ((∀ a, 1 ≤ a → a ≤ maxAttempts → att a = Except.error (errs a)) →
      call_api att maxAttempts = .exhausted (errs maxAttempts) maxAttempts)
    ∧ (∀ k text, 1 ≤ k → k ≤ maxAttempts →
        (∀ a, 1 ≤ a → a < k → att a = Except.error (errs a)) →
        att k = Except.ok text →
        call_api att maxAttempts = .content text k) := by
  constructor
  · intro hall
    have h := callApiLoop_all_fail att errs maxAttempts 1 hmax
      (fun a h1 h2 => hall a h1 (by omega))
    have hidx : 1 + maxAttempts - 1 = maxAttempts := by omega
    rw [hidx] at h
    exact h
  · intro k text hk1 hk2 hfail hk
    exact callApiLoop_first_ok att errs maxAttempts 1 k text hk1 (by omega) hfail hk

theorem call_api_spec_witness :
    call_api (fun a => Except.error (toString a)) 3 = .exhausted "3" 3
    ∧ call_api (fun a => if a ≤ 1 then Except.error "boom" else Except.ok "done") 3
        = .content "done" 2 := by
  constructor
  · exact (call_api_spec (fun a => Except.error (toString a)) 3
      (fun a => toString a) (by norm_num)).1 (fun a _ _ => rfl)
  · refine (call_api_spec _ 3 (fun _ => "boom") (by norm_num)).2 2 "done"
      (by norm_num) (by norm_num) (fun a h1 h2 => ?_) (by rfl)
    have : a = 1 := by omega
    subst this
    rfl

/-- If the acceptance test passes, the refinement loop exits immediately
without touching the oracle. -/
theorem refineLoop_accept (reduce : PyStr → Nat → PyStr) (limits : SectionLimits)
    (text : PyStr) (hacc : acceptText limits text = true) (f iter : Nat)
    (calls : List (PyStr × Nat)) :
    refineLoop reduce limits (f + 1) iter text calls = (text, iter, calls) := by
  simp [refineLoop, hacc]

/-- C6: `refine` is idempotent once converged. If the text already passes
its category's acceptance test — `char_count ≤ max_chars * (1 + tolerance)`,
`word_count ≤ max_words` and `token_estimate ≤ max_tokens`, where
`token_estimate` is `estimate_tokens` (the floor of `word_count * 1.3`) —
then for any `max_iterations ≥ 1` (in particular the source default 2)
`refine_section` performs zero model calls (both call lists are empty) and
returns the same text unchanged. -/
theorem refine_section_idempotent (reduce summ : PyStr → Nat → PyStr)
    (cfg : RefinerConfig) (text : PyStr) (sectionName : String)
    (limits : SectionLimits) (maxIterations : Nat)
    (hl : validate_section_limits cfg sectionName = .ok limits)
    (hiter : 1 ≤ maxIterations)
    (hchars : (text.length : ℚ) ≤ (limits.maxChars : ℚ) * (1 + limits.tolerance))
    (hwords : (pySplitWs text).length ≤ limits.maxWords)
    (htok : estimate_tokens text ≤ limits.maxTokens) :
    refine_section reduce summ cfg text sectionName maxIterations
      = .ok ⟨text, 0, [], []⟩ := by
  have hacc : acceptText limits text = true := by
    simp [acceptText, hchars, hwords, htok]
  obtain ⟨f, rfl⟩ : ∃ f, maxIterations = f + 1 :=
    ⟨maxIterations - 1, by omega⟩
  simp [refine_section, hl, refineLoop_accept reduce limits text hacc]

theorem refine_section_idempotent_witness :
    refine_section (fun s _ => s) (fun s _ => s) defaultConfig
      ("Hello world.".toList) "overview" 2
      = .ok ⟨"Hello world.".toList, 0, [], []⟩ := by
  refine refine_section_idempotent _ _ _ _ _ ⟨500, 100, 125, 1/10⟩ 2 rfl
    (by norm_num) ?_ (by decide) (by decide)
  have hlen : ("Hello world.".toList).length = 12 := by decide
  rw [hlen]
  norm_num

/-- C5: if the refinement loop exits by performing all `max_iterations`
shrink attempts (its final iteration count equals `max_iterations`, i.e. it
never broke on the acceptance test), then exactly one summarization call is
made — its input being the original pre-refinement text and the category's
`max_chars` budget — and its stripped output replaces the text
unconditionally, with no further acceptance check; the original text
appears only as that fallback call's input. -/
theorem refine_section_fallback (reduce summ : PyStr → Nat → PyStr)
    (cfg : RefinerConfig) (text : PyStr) (sectionName : String)
    (limits : SectionLimits) (maxIterations : Nat)
    (hl : validate_section_limits cfg sectionName = .ok limits)
    (hexhaust : (refineLoop reduce limits maxIterations 0 text []).2.1
      = maxIterations) :
    refine_section reduce summ cfg text sectionName maxIterations
      = .ok ⟨pyStrip (summ text limits.maxChars), maxIterations,
             (refineLoop reduce limits maxIterations 0 text []).2.2,
             [(text, limits.maxChars)]⟩ := by
  simp [refine_section, hl, hexhaust]

theorem refine_section_fallback_witness :
    refine_section (fun s _ => s) (fun s _ => s) ⟨10, 50, 200, 0⟩
      (List.replicate 20 'a') "overview" 2
      = .ok ⟨pyStrip (List.replicate 20 'a'), 2,
             [(List.replicate 20 'a', 10), (List.replicate 20 'a', 20)],
             [(List.replicate 20 'a', 10)]⟩ := by
  have hacc : acceptText ⟨10, 2, 2, 0⟩ (List.replicate 20 'a') = false := by
    simp [acceptText]
    intro h
    norm_num at h
  have hloop : refineLoop (fun s _ => s) ⟨10, 2, 2, 0⟩ 2 0
      (List.replicate 20 'a') []
      = (List.replicate 20 'a', 2,
         [(List.replicate 20 'a', 10), (List.replicate 20 'a', 20)]) := by
    simp only [refineLoop]
    rw [hacc]
    simp
  have h := refine_section_fallback (fun s _ => s) (fun s _ => s)
    ⟨10, 50, 200, 0⟩ (List.replicate 20 'a') "overview" ⟨10, 2, 2, 0⟩ 2
    rfl (by rw [hloop])
  rw [hloop] at h
  exact h

/-- C10: with `max_iterations = 0` the loop body never runs, so the
summarization fallback applies unconditionally: exactly one summarization
call is made (with the input text and the category's `max_chars` budget)
and its stripped output is returned — even when the input already satisfies
every size limit of its category. Hence the zero-model-calls convergence
property (C6) requires `max_iterations ≥ 1`. -/
theorem refine_section_zero_iterations (reduce summ : PyStr → Nat → PyStr)
    (cfg : RefinerConfig) (text : PyStr) (sectionName : String)
    (limits : SectionLimits)
    (hl : validate_section_limits cfg sectionName = .ok limits) :
    refine_section reduce summ cfg text sectionName 0
      = .ok ⟨pyStrip (summ text limits.maxChars), 0, [],
             [(text, limits.maxChars)]⟩ := by
  simp [refine_section, hl, refineLoop]

theorem refine_section_zero_iterations_witness :
    refine_section (fun s _ => s) (fun s _ => s) defaultConfig
      ("Hi".toList) "overview" 0
      = .ok ⟨pyStrip ("Hi".toList), 0, [], [("Hi".toList, 500)]⟩ :=
  refine_section_zero_iterations (fun s _ => s) (fun s _ => s) defaultConfig
    ("Hi".toList) "overview" ⟨500, 100, 125, 1/10⟩ rfl

/-- C4: in the skills stage, splitting the model response on commas and
trimming each item either yields exactly 10 items — then the stage succeeds
and returns exactly those 10 items, in response order, joined with `", "` —
or it raises the count-mismatch cardinality error with no automatic
repair. -/
theorem optimize_skills_spec (apiResult : PyStr) (skillsPool : List PyStr)
    (hpool : skillsPool ≠ []) (hresp : apiResult ≠ []) :
    ((((pySplitComma apiResult).map pyStrip).length ≠ 10 →
      optimize_skills apiResult skillsPool
        = .error (.countMismatch ((pySplitComma apiResult).map pyStrip).length))
     ∧ (((pySplitComma apiResult).map pyStrip).length = 10 →
      optimize_skills apiResult skillsPool
        = .ok (List.intercalate ", ".toList ((pySplitComma apiResult).map pyStrip)))) := by
  have hp : skillsPool.isEmpty = false := by
    simpa [List.isEmpty_iff] using hpool
  have hr : apiResult.isEmpty = false := by
    simpa [List.isEmpty_iff] using hresp
  constructor
  · intro h
    rw [List.length_map] at h
    simp [optimize_skills, hp, hr, h]
  · intro h
    rw [List.length_map] at h
    simp [optimize_skills, hp, hr, h]

theorem optimize_skills_spec_witness :
    optimize_skills ("a,b, c ,d,e,f,g,h,i,j".toList) ["x".toList]
      = .ok (List.intercalate ", ".toList
          ((pySplitComma ("a,b, c ,d,e,f,g,h,i,j".toList)).map pyStrip))
    ∧ optimize_skills ("a,b,c".toList) ["x".toList]
      = .error (.countMismatch 3) := by
  constructor
  · exact (optimize_skills_spec ("a,b, c ,d,e,f,g,h,i,j".toList) ["x".toList]
      (by decide) (by decide)).2 (by decide)
  · exact (optimize_skills_spec ("a,b,c".toList) ["x".toList]
      (by decide) (by decide)).1 (by decide)

/-- C3 counterexample: at a concrete job, `optimize_match` evaluates to
`none` — the Python function catches the `MatchOptimizerError` raised
inside its `try` block, logs it, and `return`s `None`. So the claim that
`optimize_match` either returns a fully populated bundle or raises a
distinguished error — never returning a non-raising failure value — is
false on the code: `None` is exactly such a non-raising failure value. -/
theorem optimize_match_none_cex :
    optimize_match (fun _ => .error "") (fun s _ => s) (fun s _ => s)
      defaultConfig [] [] [] [] ⟨[], [], [], [], [], [], []⟩ = none := rfl

/-- C3 (amended): on any unrecoverable sub-stage failure `optimize_match`
returns the non-raising failure value `None` (the stage's
`MatchOptimizerError` is caught and logged by its outer handler) instead of
raising, and it never returns a partial bundle; moreover, since the source
hardcodes the placeholder `all_resumes = []`, every call fails the
no-resume-data guard, so `optimize_match` always returns `None`. -/
theorem optimize_match_always_none (jsonLoads : PyStr → Except String PyObj)
    (reduce summ : PyStr → Nat → PyStr) (cfg : RefinerConfig)
    (objResp skResp blResp evResp : PyStr) (job : JobData) :
    optimize_match jsonLoads reduce summ cfg objResp skResp blResp evResp job = none
    ∧ optimize_match_inner jsonLoads reduce summ cfg objResp skResp blResp evResp job
        = .error .noResumeData :=
  ⟨rfl, rfl⟩

/-- Overwriting a key that is already present leaves the key list of a
record unchanged. -/
theorem keysOf_pyDictSet (d : List (PyStr × PyStr)) (kv : PyStr × PyStr)
    (h : d.any (fun e => e.1 == kv.1) = true) :
    keysOf (pyDictSet d kv) = keysOf d := by
  simp only [pyDictSet, if_pos h, keysOf, List.map_map]
  congr 1
  funext e
  by_cases he : e.1 = kv.1 <;> simp [he]

/-- Whether some entry has key `k` depends only on the key list. -/
theorem any_key_eq_of_keysOf_eq (d₁ d₂ : List (PyStr × PyStr)) (k : PyStr)
    (h : keysOf d₁ = keysOf d₂) :
    d₁.any (fun e => e.1 == k) = d₂.any (fun e => e.1 == k) := by
  have hgen : ∀ d : List (PyStr × PyStr),
      d.any (fun e => e.1 == k) = (keysOf d).any (fun x => x == k) := by
    intro d
    induction d with
    | nil => rfl
    | cons e rest ih => simp [keysOf, ih]
  rw [hgen, hgen, h]

/-- Folding updates whose keys all lie in the schema leaves the key list
equal to the schema's key list. -/
theorem keysOf_foldl_pyDictSet (upds : List (PyStr × PyStr)) :
    ∀ d, (∀ kv ∈ upds, default_data.any (fun e => e.1 == kv.1) = true) →
      keysOf d = keysOf default_data →
      keysOf (upds.foldl pyDictSet d) = keysOf default_data := by
  induction upds with
  | nil =>
    intro d _ hkeys
    simpa using hkeys
  | cons kv rest ih =>
    intro d hmem hkeys
    have hany : d.any (fun e => e.1 == kv.1) = true := by
      rw [any_key_eq_of_keysOf_eq d default_data kv.1 hkeys]
      exact hmem kv (by simp)
    have hset := keysOf_pyDictSet d kv hany
    exact ih (pyDictSet d kv) (fun x hx => hmem x (by simp [hx]))
      (hset.trans hkeys)

/-- Whenever `applySchema` succeeds, the resulting record has exactly the
schema's keys. -/
theorem applySchema_ok_keys (parsed : PyObj) (r : List (PyStr × PyStr))
    (h : applySchema parsed = .ok r) : keysOf r = keysOf default_data := by
  unfold applySchema at h
  cases hp : pyItems parsed with
  | error e => rw [hp] at h; exact absurd h (by simp)
  | ok entries =>
    rw [hp] at h
    have hr : ((entries.filter
        (fun kv => default_data.any (fun d => d.1 == kv.1))).map
        (fun kv => (kv.1, pyStrOf kv.2))).foldl pyDictSet default_data = r := by
      injection h
    rw [← hr]
    apply keysOf_foldl_pyDictSet _ default_data _ rfl
    intro kv hkv
    obtain ⟨e, he, rfl⟩ := List.mem_map.mp hkv
    exact (List.mem_filter.mp he).2

/-- Every successful run of the sanitizer's `try` body ends in
`applySchema`. -/
theorem clean_inner_ok_applySchema (jsonLoads : PyStr → Except String PyObj)
    (allowSalvage : Bool) (response : ApiResponse) (r : List (PyStr × PyStr))
    (h : clean_api_response_inner jsonLoads allowSalvage response = .ok r) :
    ∃ p, applySchema p = .ok r := by
  simp only [clean_api_response_inner] at h
  repeat' split at h
  all_goals first
    | exact ⟨_, h⟩
    | exact absurd h (by simp)

/-- C1: for every raw input — any string (empty, non-JSON prose, or valid
JSON with extra or missing keys), any structured value, any envelope — and
for every behaviour of `json.loads` and either setting of
`ALLOW_PARTIAL_JSON_PARSE`, the record returned by `clean_api_response`
has exactly the required-field schema's key list: every required field is
present (default-filled when not recovered) and every parsed key outside
the schema is dropped, on every recovery tier including the full-fallback
path. -/
theorem clean_api_response_keys (jsonLoads : PyStr → Except String PyObj)
    (allowSalvage : Bool) (response : ApiResponse) :
    keysOf (clean_api_response jsonLoads allowSalvage response)
      = keysOf default_data := by
  unfold clean_api_response
  cases h : clean_api_response_inner jsonLoads allowSalvage response with
  | error e => rfl
  | ok r =>
    obtain ⟨p, hp⟩ :=
      clean_inner_ok_applySchema jsonLoads allowSalvage response r h
    exact applySchema_ok_keys p r hp

/-- C2: `clean_api_response` is a total function (every exception inside
its `try` body is caught); in particular, when JSON parsing fails on the
preprocessed string and the regex salvage finds no key-value pairs (the
case where `partial_json_salvage` itself raises `ValueError`), it returns
the all-defaults record instead of propagating any exception — for either
setting of `ALLOW_PARTIAL_JSON_PARSE`. -/
theorem clean_api_response_total_fallback (jsonLoads : PyStr → Except String PyObj)
    (allowSalvage : Bool) (s : PyStr) (e : String)
    (hparse : jsonLoads (preprocess s) = .error e)
    (hsalv : findPairs (preprocess s) = []) :
    clean_api_response jsonLoads allowSalvage (.pystr s) = default_data := by
  unfold clean_api_response clean_api_response_inner unwrapContent
  cases allowSalvage with
  | false => simp [hparse]
  | true => simp [hparse, json_salvage, hsalv]

theorem clean_api_response_total_fallback_witness :
    clean_api_response (fun _ => Except.error "Expecting value") true
      (.pystr ("The posting was unclear, alas!".toList)) = default_data :=
  clean_api_response_total_fallback (fun _ => Except.error "Expecting value")
    true ("The posting was unclear, alas!".toList) "Expecting value" rfl
    (by decide)

/-- Sorting does not change the number of slot triples: one per slot. -/
theorem sortedSkills_length (d : List (Nat × PyStr)) (texts : Nat → PyStr) :
    (sortedSkills d texts).length = d.length := by
  simp [sortedSkills, skills_list_of, List.length_mergeSort]

/-- The slot numbers of the sorted triples are a permutation of the input
slot numbers. -/
theorem sortedSkills_nums_perm (d : List (Nat × PyStr)) (texts : Nat → PyStr) :
    ((sortedSkills d texts).map (fun x => x.1)).Perm (d.map Prod.fst) := by
  have h2 := (List.mergeSort_perm (skills_list_of d texts)
    (fun a b => decide (b.2.1.length ≤ a.2.1.length))).map
    (fun x : Nat × PyStr × PyStr => x.1)
  have h3 : (skills_list_of d texts).map (fun x => x.1)
      = (d.map Prod.fst).mergeSort (fun a b => decide (a ≤ b)) := by
    simp only [skills_list_of, List.map_map]
    exact List.map_id _
  have h4 := List.mergeSort_perm (d.map Prod.fst) (fun a b => decide (a ≤ b))
  rw [h3] at h2
  exact h2.trans h4

/-- When the input slot numbers are distinct, so are the slot numbers of
the sorted triples. -/
theorem sortedSkills_nums_nodup (d : List (Nat × PyStr)) (texts : Nat → PyStr)
    (hnodup : (d.map Prod.fst).Nodup) :
    ((sortedSkills d texts).map (fun x => x.1)).Nodup :=
  (sortedSkills_nums_perm d texts).symm.nodup hnodup

/-- The index-based pairing loop equals zipping the front half with the
reversed back half of the sorted list. -/
theorem pairedTriples_eq_zip (d : List (Nat × PyStr)) (texts : Nat → PyStr) :
    pairedTriples d texts
      = ((sortedSkills d texts).take ((sortedSkills d texts).length / 2)).zip
        (((sortedSkills d texts).drop
          ((sortedSkills d texts).length
            - (sortedSkills d texts).length / 2)).reverse) := by
  apply List.ext_getElem
  · simp only [pairedTriples, List.length_map, List.length_range,
      List.length_zip, List.length_take, List.length_reverse, List.length_drop]
    omega
  · intro i h1 h2
    have hn : i < (sortedSkills d texts).length / 2 := by
      simpa [pairedTriples] using h1
    have hlen : (sortedSkills d texts).length / 2 ≤ (sortedSkills d texts).length :=
      Nat.div_le_self _ _
    simp only [pairedTriples, List.getElem_map, List.getElem_range,
      List.getElem_zip, List.getElem_take, List.getElem_reverse,
      List.getElem_drop]
    rw [List.getD_eq_getElem _ _ (by omega), List.getD_eq_getElem _ _ (by omega)]
    refine Prod.ext rfl ?_
    have hidx : (sortedSkills d texts).length
          - ((sortedSkills d texts).length - (sortedSkills d texts).length / 2)
          - 1 - i
        = (sortedSkills d texts).length / 2 - 1 - i := by
      omega
    simp only [List.length_drop]
    congr 1
    omega

/-- For an even slot count, the triples appearing in the pairs (firsts then
seconds) are a permutation of the sorted triples. -/
theorem pairedTriples_flat_perm (d : List (Nat × PyStr)) (texts : Nat → PyStr)
    (heven : (sortedSkills d texts).length % 2 = 0) :
    (((pairedTriples d texts).map (fun p => p.1.1))
      ++ ((pairedTriples d texts).map (fun p => p.2.1))).Perm
      ((sortedSkills d texts).map (fun x => x.1)) := by
  rw [pairedTriples_eq_zip]
  set s := sortedSkills d texts with hs
  set n := s.length with hn
  have hhalf : n - n / 2 = n / 2 := by omega
  rw [hhalf]
  have hlen_take : (s.take (n / 2)).length = n / 2 := by
    simp [List.length_take]
    omega
  have hlen_rev : ((s.drop (n / 2)).reverse).length = n / 2 := by
    simp [List.length_reverse, List.length_drop]
    omega
  have hfst : ((s.take (n / 2)).zip ((s.drop (n / 2)).reverse)).map Prod.fst
      = s.take (n / 2) :=
    List.map_fst_zip _ _ (by rw [hlen_take, hlen_rev])
  have hsnd : ((s.take (n / 2)).zip ((s.drop (n / 2)).reverse)).map Prod.snd
      = (s.drop (n / 2)).reverse :=
    List.map_snd_zip _ _ (by rw [hlen_take, hlen_rev])
  have hmf : ((s.take (n / 2)).zip ((s.drop (n / 2)).reverse)).map
        (fun p => p.1.1)
      = (s.take (n / 2)).map (fun x => x.1) := by
    rw [show (fun p : (Nat × PyStr × PyStr) × (Nat × PyStr × PyStr) => p.1.1)
        = (fun x : Nat × PyStr × PyStr => x.1) ∘ Prod.fst from rfl]
    rw [← List.map_map, hfst]
  have hms : ((s.take (n / 2)).zip ((s.drop (n / 2)).reverse)).map
        (fun p => p.2.1)
      = ((s.drop (n / 2)).reverse).map (fun x => x.1) := by
    rw [show (fun p : (Nat × PyStr × PyStr) × (Nat × PyStr × PyStr) => p.2.1)
        = (fun x : Nat × PyStr × PyStr => x.1) ∘ Prod.snd from rfl]
    rw [← List.map_map, hsnd]
  rw [hmf, hms, ← List.map_append]
  apply List.Perm.map
  have happ : (s.take (n / 2) ++ (s.drop (n / 2)).reverse).Perm
      (s.take (n / 2) ++ s.drop (n / 2)) :=
    List.Perm.append_left _ (List.reverse_perm _)
  rw [List.take_append_drop] at happ
  exact happ

/-- C9: `pair_skills_by_length` sorts the slot triples descending by the
character length of the slot's text and pairs position `i` from the front
with position `n-1-i` from the back. For distinct slot numbers: the sorted
list has one triple per slot; it is sorted descending by text length;
exactly `n/2` pairs are returned; for an even slot count every input slot
number appears in exactly one pair; and for an odd slot count the exact
middle element of the sorted order appears in no returned pair. -/
theorem pair_skills_by_length_spec (d : List (Nat × PyStr)) (texts : Nat → PyStr)
    (hnodup : (d.map Prod.fst).Nodup) :
    (sortedSkills d texts).length = d.length
    ∧ List.Pairwise
        (fun a b : Nat × PyStr × PyStr => b.2.1.length ≤ a.2.1.length)
        (sortedSkills d texts)
    ∧ (pair_skills_by_length d texts).length = d.length / 2
    ∧ (d.length % 2 = 0 → ∀ num ∈ d.map Prod.fst,
        (((pairedTriples d texts).map (fun p => p.1.1))
          ++ ((pairedTriples d texts).map (fun p => p.2.1))).count num = 1)
    ∧ (d.length % 2 = 1 → ∀ pr ∈ pairedTriples d texts,
        pr.1.1 ≠ ((sortedSkills d texts).getD (d.length / 2) (0, [], [])).1
        ∧ pr.2.1 ≠ ((sortedSkills d texts).getD (d.length / 2) (0, [], [])).1) := by
  have hlen := sortedSkills_length d texts
  refine ⟨hlen, ?_, ?_, ?_, ?_⟩
  · have hsorted := @List.sorted_mergeSort (Nat × PyStr × PyStr)
      (fun a b => decide (b.2.1.length ≤ a.2.1.length))
      (fun a b c hab hbc => by
        simp only [decide_eq_true_eq] at *
        omega)
      (fun a b => by
        simp only [Bool.or_eq_true, decide_eq_true_eq]
        omega)
      (skills_list_of d texts)
    exact hsorted.imp (fun h => by simpa using h)
  · simp only [pair_skills_by_length, pairedTriples, List.length_map,
      List.length_range]
    rw [hlen]
  · intro heven num hnum
    have heven' : (sortedSkills d texts).length % 2 = 0 := by omega
    have hperm := pairedTriples_flat_perm d texts heven'
    rw [hperm.count_eq, (sortedSkills_nums_perm d texts).count_eq]
    exact List.count_eq_one_of_mem hnodup hnum
  · intro hodd pr hpr
    have hodd' : (sortedSkills d texts).length % 2 = 1 := by omega
    simp only [pairedTriples, List.mem_map, List.mem_range] at hpr
    obtain ⟨i, hi, rfl⟩ := hpr
    have hnodup' := sortedSkills_nums_nodup d texts hnodup
    have key : ∀ (j k : Nat) (hj : j < (sortedSkills d texts).length)
        (hk : k < (sortedSkills d texts).length),
        ((sortedSkills d texts).get ⟨j, hj⟩).1
          = ((sortedSkills d texts).get ⟨k, hk⟩).1 → j = k := by
      intro j k hj hk hEq
      have hj2 : j < ((sortedSkills d texts).map (fun x => x.1)).length := by
        simpa using hj
      have hk2 : k < ((sortedSkills d texts).map (fun x => x.1)).length := by
        simpa using hk
      have hmap : ((sortedSkills d texts).map (fun x => x.1)).get ⟨j, hj2⟩
          = ((sortedSkills d texts).map (fun x => x.1)).get ⟨k, hk2⟩ := by
        simp only [List.get_eq_getElem, List.getElem_map]
        simpa [List.get_eq_getElem] using hEq
      rw [List.get_eq_getElem, List.get_eq_getElem] at hmap
      exact (hnodup'.getElem_inj_iff).mp hmap
    have hb1 : i < (sortedSkills d texts).length := by omega
    have hb2 : (sortedSkills d texts).length - 1 - i
        < (sortedSkills d texts).length := by omega
    have hbm : d.length / 2 < (sortedSkills d texts).length := by omega
    rw [List.getD_eq_getElem _ _ hb1, List.getD_eq_getElem _ _ hb2,
      List.getD_eq_getElem _ _ hbm]
    constructor
    · intro heq
      have := key i (d.length / 2) hb1 hbm (by
        simpa [List.get_eq_getElem] using heq)
      omega
    · intro heq
      have := key ((sortedSkills d texts).length - 1 - i) (d.length / 2) hb2 hbm
        (by simpa [List.get_eq_getElem] using heq)
      omega

theorem pair_skills_by_length_spec_witness :
    (pair_skills_by_length
        [(1, "p1".toList), (2, "p2".toList), (3, "p3".toList), (4, "p4".toList)]
        (fun n => List.replicate n 'x')).length = 2
    ∧ (((pairedTriples
          [(1, "p1".toList), (2, "p2".toList), (3, "p3".toList), (4, "p4".toList)]
          (fun n => List.replicate n 'x')).map (fun p => p.1.1))
        ++ ((pairedTriples
          [(1, "p1".toList), (2, "p2".toList), (3, "p3".toList), (4, "p4".toList)]
          (fun n => List.replicate n 'x')).map (fun p => p.2.1))).count 3 = 1 := by
  have h := pair_skills_by_length_spec
    [(1, "p1".toList), (2, "p2".toList), (3, "p3".toList), (4, "p4".toList)]
    (fun n => List.replicate n 'x') (by decide)
  exact ⟨h.2.2.1, h.2.2.2.1 (by decide) 3 (by decide)⟩

end ExtractLLM
